import Mathlib

/-!
# TubeBackdrop — Embedded Player Bridge: shallow embedding and verification

This file embeds the core of the `youtube_embedlink` repository in Lean 4 and
proves (or refutes) the frozen claims about it.

Embedded source files:
* `src/App.tsx` — the message listener `handleMessage`, the player state,
  the video-change reset logic;
* `src/components/VideoBackground.tsx` — the interaction-mode resolver
  `allowDirectInteraction` (both variants present in the file) and the
  autoplay kickstart effect;
* `src/utils/youtubeUtils.ts` — `extractVideoId`, `getEmbedUrl`,
  `getSimpleEmbedUrl`.

Modelling conventions:
* JavaScript strings are Lean `String` (or `List Char` where elementwise
  reasoning is needed); `str.includes(pat)` for a non-empty `pat` is modelled
  by splitting on the pattern.
* `undefined` / absent object fields are `Option.none`.
* JS truthiness on an optional integer field (`if (x)`) is "present and
  nonzero"; on an optional string it is "present and nonempty".
* `JSON.parse` failure (caught by the surrounding `try`) is modelled by the
  payload being `Option.none`.
* React state setters become functional record updates; an effect re-run is a
  step function applied to the state.
-/

namespace TubeBackdrop

/-- `startsWithChars p l` — `p` is a leading segment of `l` (character
lists). -/
def startsWithChars : List Char → List Char → Bool
  | [], _ => true
  | _ :: _, [] => false
  | p :: ps, c :: cs => p == c && startsWithChars ps cs

/-- `occursIn pat l` — `pat` occurs contiguously somewhere in `l`. -/
def occursIn : List Char → List Char → Bool
  | pat, [] => pat.isEmpty
  | pat, c :: cs => startsWithChars pat (c :: cs) || occursIn pat cs

/-- JS `str.includes(pat)`: true iff `pat` occurs as a contiguous substring of
`s` (and always true for the empty pattern, as in JS). -/
def strIncludes (s pat : String) : Bool :=
  occursIn pat.data s.data

/-! ## Inbound message model (wire envelope, §6 of the spec)

`src/App.tsx` lines 133-180 (`handleMessage`). The payload of a cross-context
message is either a raw structured object or a JSON string; a string that
fails `JSON.parse` is swallowed by the `try`/`catch`. -/

/-- The `info` object of an `infoDelivery` envelope: every field optional.
`error = some 0` models a payload in which the `error` key is present with
value `0` (which is falsy in JS). -/
structure InfoPayload where
  playerState : Option Int
  muted : Option Bool
  volume : Option Int
  error : Option Int
  deriving Repr, DecidableEq

/-- Parsed event envelope, discriminated on the `event` string.
`infoDelivery none` models `{event:"infoDelivery"}` with a missing or falsy
`info` field; `other` models any unrecognized `event` value. -/
inductive EventData where
  | infoDelivery (info : Option InfoPayload)
  | onReady
  | initialDelivery
  | other
  deriving Repr, DecidableEq

/-- A raw inbound cross-context message: the reported sender origin and the
parse outcome of its payload (`none` = `JSON.parse` threw). -/
structure RawMessage where
  origin : String
  payload : Option EventData
  deriving Repr, DecidableEq

/-! ## Player state (App.tsx component state) -/

/-- The mutable state of the `App` component that `handleMessage` touches:
`playerState` (lifecycle code −1/0/1/2/3/5), `volume`, `isMuted`,
`hasConnectionError` (the spec's `fallbackForced`) and the
`isApiConnected` ref (the spec's `connectionEstablished`). -/
structure AppState where
  playerState : Int
  volume : Int
  isMuted : Bool
  hasConnectionError : Bool
  isApiConnected : Bool
  deriving Repr, DecidableEq

/-- Initial component state (`useState` initialisers, App.tsx lines 14-30). -/
def initialAppState : AppState :=
  { playerState := -1
    volume := 100
    isMuted := false
    hasConnectionError := false
    isApiConnected := false }

/-- The `infoDelivery` branch of `handleMessage` (App.tsx lines 138-161):
each present field updates the corresponding state field; a present *truthy*
(nonzero) `error` sets `hasConnectionError`. -/
def applyInfoDelivery (s : AppState) (i : InfoPayload) : AppState :=
  let s := match i.playerState with
    | some ps => { s with playerState := ps }
    | none => s
  let s := match i.muted with
    | some b => { s with isMuted := b }
    | none => s
  let s := match i.volume with
    | some v => { s with volume := v }
    | none => s
  match i.error with
  | some e => if e ≠ 0 then { s with hasConnectionError := true } else s
  | none => s

/-- One step of `handleMessage` (App.tsx lines 133-180): origin filter on the
substring `"youtube"`, silent discard of unparseable payloads, then dispatch
on the event kind. Returns the new state and the list of command function
names sent via `sendCommand` during the step (`onReady` kicks `playVideo`
when autoplay is on, lines 162-170). -/
def handleMessage (autoplay : Bool) (s : AppState) (m : RawMessage) :
    AppState × List String :=
  if strIncludes m.origin "youtube" then
    match m.payload with
    | none => (s, [])
    | some d =>
      match d with
      | .infoDelivery info =>
        match info with
        | some i => (applyInfoDelivery s i, [])
        | none => (s, [])
      | .onReady =>
        ({ s with isApiConnected := true, hasConnectionError := false },
          if autoplay then ["playVideo"] else [])
      | .initialDelivery =>
        ({ s with isApiConnected := true, hasConnectionError := false }, [])
      | .other => (s, [])
  else (s, [])

/-- Fold a sequence of inbound messages through `handleMessage`, keeping only
the state. -/
def runMessages (autoplay : Bool) (s : AppState) (ms : List RawMessage) :
    AppState :=
  ms.foldl (fun st m => (handleMessage autoplay st m).1) s

/-! ## Video-change reset (App.tsx) -/

/-- The `InputBar.onVideoChange` callback (App.tsx lines 228-234): store the
new config and reset `playerState` to −1. The config itself is returned
alongside. -/
def onVideoChangeHandler (s : AppState) : AppState :=
  { s with playerState := -1 }

/-- The head of the message-listener effect (App.tsx lines 129-131), re-run on
every `videoConfig` change before the new listener is attached: clears the
connection flag and the connection-error flag. -/
def listenerEffectInit (s : AppState) : AppState :=
  { s with isApiConnected := false, hasConnectionError := false }

/-- Full state reset performed by a VideoRequest change: the `InputBar`
callback runs first (same browser task), then the effect re-runs before any
message of the new request can be dispatched to a listener. -/
def videoChangeReset (s : AppState) : AppState :=
  listenerEffectInit (onVideoChangeHandler s)

/-! ## Interaction-mode resolver (`src/components/VideoBackground.tsx`)

The file carries two revisions of the component. The revision actually used
by `src/App.tsx` (it is the one accepting `onDebugLog`/`onTogglePlay`) decides
direct interaction at line 221; an earlier revision decides it at line 63. -/

/-- Derived interaction mode (spec §3/§4.3): `PassThrough` = the overlay is
`pointer-events-none` and clicks reach the iframe; `Intercepted` = the overlay
captures clicks. -/
inductive InteractionMode where
  | PassThrough
  | Intercepted
  deriving Repr, DecidableEq

/-- `allowDirectInteraction` of the live component revision
(VideoBackground.tsx line 221): `useFallback || isSandboxed`. -/
def allowDirectInteraction (useFallback isSandboxed : Bool) : Bool :=
  useFallback || isSandboxed

/-- `allowDirectInteraction` of the earlier component revision
(VideoBackground.tsx line 63): `useFallback || !autoplay`. -/
def allowDirectInteractionV1 (useFallback autoplay : Bool) : Bool :=
  useFallback || !autoplay

/-- Interaction mode computed by the live component: the overlay lets clicks
through exactly when `allowDirectInteraction` holds (VideoBackground.tsx
lines 245-250). -/
def interactionMode (useFallback isSandboxed : Bool) : InteractionMode :=
  if allowDirectInteraction useFallback isSandboxed then .PassThrough
  else .Intercepted

/-- Interaction mode of the earlier revision (VideoBackground.tsx
lines 84-88). -/
def interactionModeV1 (useFallback autoplay : Bool) : InteractionMode :=
  if allowDirectInteractionV1 useFallback autoplay then .PassThrough
  else .Intercepted

/-- Modelled from the spec (§3 / §4.3 truth table): `PassThrough` when
`fallbackForced OR sandboxDetected OR (!autoplayRequested)`, `Intercepted`
otherwise. Stated for comparison with the code's resolvers. -/
def specInteractionMode (fallbackForced sandboxDetected autoplayRequested : Bool) :
    InteractionMode :=
  if fallbackForced || sandboxDetected || !autoplayRequested then .PassThrough
  else .Intercepted

/-! ## Autoplay kickstart scheduler (`src/components/VideoBackground.tsx`
lines 157-173)

```
useEffect(() => {
  if (useFallback || !autoplay) return;
  const timer = setTimeout(() => { ... postMessage playVideo ... }, 1500);
  return () => clearTimeout(timer);
}, [currentVideoId, useFallback, autoplay]);
```

The effect re-runs when `currentVideoId`, `useFallback` or `autoplay`
changes; React runs the previous run's cleanup (`clearTimeout`) first. We
model the scheduler's lifetime as a state machine over timer identifiers:
`effectRun` is one cleanup-plus-run cycle (triggered by mount or by a change
of any dependency, in particular by the VideoRequest changing or fallback
becoming forced), `teardown` is unmount cleanup, and `timerFire t` is the
delayed callback of timer `t` reaching the end of its 1500 ms settle delay.
A cleared timer never fires, which the model renders as: `timerFire t`
dispatches only while `t` is still the pending timer. -/

/-- Scheduler state: the pending (not-yet-cleared, not-yet-fired) timer, a
fresh-identifier counter, and the identifiers whose delayed `playVideo`
command was actually dispatched, in order. -/
structure KickState where
  pending : Option Nat
  nextId : Nat
  fired : List Nat
  deriving Repr, DecidableEq

/-- Scheduler state on first mount: no timer yet. -/
def initialKickState : KickState :=
  { pending := none, nextId := 0, fired := [] }

/-- Lifetime events of the kickstart effect. -/
inductive KickEvent where
  | effectRun (useFallback : Bool) (autoplay : Bool)
  | teardown
  | timerFire (t : Nat)
  deriving Repr, DecidableEq

/-- One scheduler step. `effectRun` first performs the previous cleanup
(clearing any pending timer), then the effect body: it schedules one fresh
timer unless `useFallback || !autoplay`. `teardown` clears the pending
timer. `timerFire t` dispatches the delayed `playVideo` iff `t` was still
pending. -/
def kickStep (s : KickState) : KickEvent → KickState
  | .effectRun useFallback autoplay =>
    if useFallback || !autoplay then { s with pending := none }
    else
      { pending := some s.nextId, nextId := s.nextId + 1, fired := s.fired }
  | .teardown => { s with pending := none }
  | .timerFire t =>
    if s.pending = some t then
      { s with pending := none, fired := s.fired ++ [t] }
    else s

/-- Run a sequence of scheduler events. -/
def kickRun (s : KickState) (evs : List KickEvent) : KickState :=
  evs.foldl kickStep s

/-! ## Embed URL builders (`src/utils/youtubeUtils.ts`) -/

/-- One trailing-slash strip: JS `origin.replace(/\/$/, '')`. -/
def stripTrailingSlash (s : String) : String :=
  match s.data.reverse with
  | '/' :: rest => ⟨rest.reverse⟩
  | _ => s

/-- Sandbox detection inside `getEmbedUrl` (youtubeUtils.ts line 80): the
(already slash-stripped) window origin contains `usercontent.goog` or
`googleusercontent`. -/
def isSandboxedOrigin (origin : String) : Bool :=
  strIncludes origin "usercontent.goog" || strIncludes origin "googleusercontent"

/-- The ordered parameter list handed to `URLSearchParams` by `getEmbedUrl`
(youtubeUtils.ts lines 73-95). `rawOrigin` models
`window.location.origin` (the empty string when unavailable). -/
def getEmbedUrlParams (rawOrigin videoId : String) : List (String × String) :=
  let origin := stripTrailingSlash rawOrigin
  let isSandboxed := isSandboxedOrigin origin
  let enableApi := if isSandboxed then "0" else "1"
  [("autoplay", "1"),
   ("mute", "1"),
   ("controls", if isSandboxed then "1" else "0"),
   ("enablejsapi", enableApi),
   ("origin", origin),
   ("loop", "1"),
   ("playlist", videoId),
   ("playsinline", "1")]

/-- The ordered parameter list of `getSimpleEmbedUrl`
(youtubeUtils.ts lines 104-113). -/
def getSimpleEmbedUrlParams (videoId : String) : List (String × String) :=
  [("autoplay", "1"),
   ("mute", "1"),
   ("controls", "0"),
   ("loop", "1"),
   ("playlist", videoId),
   ("playsinline", "1")]

/-- Characters kept verbatim by `application/x-www-form-urlencoded`
serialisation (`URLSearchParams.toString`). -/
def formUnreserved (c : Char) : Bool :=
  c.isAlphanum || c == '*' || c == '-' || c == '.' || c == '_'

/-- Nibble to uppercase hexadecimal digit. -/
def hexDigit (n : Nat) : Char :=
  if n < 10 then Char.ofNat (48 + n) else Char.ofNat (55 + n)

/-- Percent-encode one byte. -/
def encodeByte (b : UInt8) : List Char :=
  ['%', hexDigit (b.toNat / 16), hexDigit (b.toNat % 16)]

/-- `application/x-www-form-urlencoded` escaping of one string: unreserved
characters kept, space becomes `+`, everything else percent-encoded per
UTF-8 byte. -/
def formEncode (s : String) : String :=
  ⟨s.data.flatMap fun c =>
    if formUnreserved c then [c]
    else if c == ' ' then ['+']
    else (String.toUTF8 ⟨[c]⟩).toList.flatMap encodeByte⟩

/-- `URLSearchParams.toString`: `k=v` pairs joined by `&`. -/
def encodeParams (ps : List (String × String)) : String :=
  String.intercalate "&" (ps.map fun kv => formEncode kv.1 ++ "=" ++ formEncode kv.2)

/-- `getEmbedUrl` (youtubeUtils.ts lines 73-98). Note the TS function takes
only `videoId`; the window origin is ambient and modelled as an explicit
argument. -/
def getEmbedUrl (rawOrigin videoId : String) : String :=
  "https://www.youtube.com/embed/" ++ videoId ++ "?"
    ++ encodeParams (getEmbedUrlParams rawOrigin videoId)

/-- `getSimpleEmbedUrl` (youtubeUtils.ts lines 104-114). -/
def getSimpleEmbedUrl (videoId : String) : String :=
  "https://www.youtube.com/embed/" ++ videoId ++ "?"
    ++ encodeParams (getSimpleEmbedUrlParams videoId)

/-- The call sites in `VideoBackground.tsx` (lines 57 and 216) pass a second
`autoplay` argument; the TS function declares a single parameter, so the
extra argument is discarded. This wrapper models that call. -/
def getEmbedUrlCall (rawOrigin videoId : String) (_autoplay : Bool) : String :=
  getEmbedUrl rawOrigin videoId

/-! ## `extractVideoId` (`src/utils/youtubeUtils.ts` lines 10-68)

The function works on JS strings; we embed it over `List Char`. The platform
pieces (`String.prototype.trim`, `new URL`, `URLSearchParams`) are modelled
by small executable parsers below; WHATWG details that no branch of
`extractVideoId` can observe through its 11-character guards (full UTF-8
percent-decoding, path normalisation, host validation beyond non-emptiness)
are simplified. -/

/-- JS `\w`: ASCII letter, digit or underscore. -/
def isJsWordChar (c : Char) : Bool :=
  c.isAlphanum || c == '_'

/-- Character class of the ID test regex `[a-zA-Z0-9_-]`. -/
def isIdChar (c : Char) : Bool :=
  c.isAlphanum || c == '_' || c == '-'

/-- The test `/^[a-zA-Z0-9_-]{11}$/.test s`. -/
def isId11 (l : List Char) : Bool :=
  l.length == 11 && l.all isIdChar

/-- JS `String.prototype.trim`. -/
def trimChars (l : List Char) : List Char :=
  ((l.dropWhile Char.isWhitespace).reverse.dropWhile Char.isWhitespace).reverse

/-- `replace(/^\/+/, '')`. -/
def dropLeadingSlashes (l : List Char) : List Char :=
  l.dropWhile (· == '/')

/-- `replace(/\/+$/, '')`. -/
def dropTrailingSlashes (l : List Char) : List Char :=
  (l.reverse.dropWhile (· == '/')).reverse

/-- Everything after the last occurrence of `ch` (the whole list when `ch`
does not occur): used to skip URL userinfo. -/
def afterLastOcc (ch : Char) (l : List Char) : List Char :=
  (l.reverse.takeWhile (fun c => !(c == ch))).reverse

/-- The suffix after the first occurrence of `sep` (`none` when `sep` does
not occur). -/
def afterFirstOcc (sep : List Char) : List Char → Option (List Char)
  | [] => if sep.isEmpty then some [] else none
  | c :: cs =>
    if startsWithChars sep (c :: cs) then some ((c :: cs).drop sep.length)
    else afterFirstOcc sep cs

/-- Characters up to (excluding) the next occurrence of `sep`. -/
def upToNextOcc (sep : List Char) : List Char → List Char
  | [] => []
  | c :: cs =>
    if startsWithChars sep (c :: cs) then []
    else c :: upToNextOcc sep cs

/-- JS `l.split(sep)[1]`: the segment between the first and second
occurrences of `sep`. -/
def splitSecond (sep l : List Char) : Option (List Char) :=
  (afterFirstOcc sep l).map (upToNextOcc sep)

/-- Result of the `new URL` model. -/
structure UrlObj where
  hostname : List Char
  pathname : List Char
  query : List Char
  deriving Repr, DecidableEq

/-- Model of `new URL` for `http`/`https` inputs: split off the authority,
take the host part after userinfo and before any port, lowercase it, and cut
path and query at the usual delimiters. A URL whose host is empty throws in
the platform, modelled by `none`. -/
def parseUrl (l : List Char) : Option UrlObj :=
  let rest :=
    if startsWithChars "https://".data l then some (l.drop 8)
    else if startsWithChars "http://".data l then some (l.drop 7)
    else none
  match rest with
  | none => none
  | some r =>
    let authority := r.takeWhile fun c => !(c == '/' || c == '?' || c == '#')
    let afterAuth := r.drop authority.length
    let hostname :=
      ((afterLastOcc '@' authority).takeWhile fun c => !(c == ':')).map Char.toLower
    if hostname.isEmpty then none
    else
      let path := afterAuth.takeWhile fun c => !(c == '?' || c == '#')
      let afterPath := afterAuth.drop path.length
      let pathname := if path.isEmpty then ['/'] else path
      let query :=
        match afterPath with
        | '?' :: qs => qs.takeWhile fun c => !(c == '#')
        | _ => []
      some ⟨hostname, pathname, query⟩

/-- Hexadecimal digit value. -/
def hexVal (c : Char) : Option Nat :=
  if '0' ≤ c ∧ c ≤ '9' then some (c.toNat - 48)
  else if 'A' ≤ c ∧ c ≤ 'F' then some (c.toNat - 55)
  else if 'a' ≤ c ∧ c ≤ 'f' then some (c.toNat - 87)
  else none

/-- `application/x-www-form-urlencoded` decoding as done by `URLSearchParams`
(`+` to space, `%XX` to the coded byte; multi-byte UTF-8 sequences are
decoded bytewise here, a simplification invisible to the ID guards). -/
def pctDecode : List Char → List Char
  | [] => []
  | '+' :: rest => ' ' :: pctDecode rest
  | '%' :: a :: b :: rest =>
    match hexVal a, hexVal b with
    | some x, some y => Char.ofNat (16 * x + y) :: pctDecode rest
    | _, _ => '%' :: pctDecode (a :: b :: rest)
  | c :: rest => c :: pctDecode rest

/-- Split on a separator character, keeping empty segments. -/
def splitOnCharAux (ch : Char) : List Char → List Char → List (List Char)
  | [], acc => [acc.reverse]
  | c :: cs, acc =>
    if c == ch then acc.reverse :: splitOnCharAux ch cs []
    else splitOnCharAux ch cs (c :: acc)

/-- Split on a separator character. -/
def splitOnChar (ch : Char) (l : List Char) : List (List Char) :=
  splitOnCharAux ch l []

/-- The decoded key/value pairs of a query string, as `URLSearchParams`
produces them (empty segments skipped, missing `=` gives an empty value). -/
def searchPairs (q : List Char) : List (List Char × List Char) :=
  (splitOnChar '&' q).filterMap fun seg =>
    if seg.isEmpty then none
    else
      let k := seg.takeWhile fun c => !(c == '=')
      some (pctDecode k, pctDecode (seg.drop (k.length + 1)))

/-- `searchParams.get key` (`none` both when the key is absent; `has` is
modelled by `isSome`). -/
def searchGet (q key : List Char) : Option (List Char) :=
  ((searchPairs q).find? fun kv => kv.1 == key).map (·.2)

/-- The recurring guard `if (id && /^[a-zA-Z0-9_-]{11}$/.test(id)) return id`
of the URL-object branches. -/
def checkId11 (id : List Char) : Option (List Char) :=
  if !id.isEmpty && isId11 id then some id else none

/-- The `youtu.be` branch (youtubeUtils.ts lines 25-31): strip slashes around
the pathname and return it iff nonempty and a valid 11-char ID. -/
def youtuBeBranch (u : UrlObj) : Option (List Char) :=
  if occursIn "youtu.be".data u.hostname then
    checkId11 (dropTrailingSlashes (dropLeadingSlashes u.pathname))
  else none

/-- The `youtube.com` branch (youtubeUtils.ts lines 34-52): `watch?v=`, then
`/shorts/`, then `/embed/`; each candidate is returned only if it passes the
11-char test, otherwise the next check runs. -/
def youtubeComBranch (u : UrlObj) : Option (List Char) :=
  if occursIn "youtube.com".data u.hostname then
    let vCand :=
      match searchGet u.query ['v'] with
      | some id => checkId11 id
      | none => none
    let shortsCand :=
      if startsWithChars "/shorts/".data u.pathname then
        match splitSecond "/shorts/".data u.pathname with
        | some seg => checkId11 (dropTrailingSlashes seg)
        | none => none
      else none
    let embedCand :=
      if startsWithChars "/embed/".data u.pathname then
        match splitSecond "/embed/".data u.pathname with
        | some seg => checkId11 (dropTrailingSlashes seg)
        | none => none
      else none
    (vCand <|> shortsCand) <|> embedCand
  else none

/-- Steps 2 of `extractVideoId` (youtubeUtils.ts lines 20-55): the guarded
URL-object parsing; a parse exception falls through to the regex step. -/
def urlObjBranch (cleanUrl : List Char) : Option (List Char) :=
  let urlToParse :=
    if startsWithChars "http://".data cleanUrl
        || startsWithChars "https://".data cleanUrl then cleanUrl
    else "https://".data ++ cleanUrl
  (parseUrl urlToParse).bind fun u => youtuBeBranch u <|> youtubeComBranch u

/-! The fallback regex (youtubeUtils.ts line 58):
`/^.*((youtu.be\/)|(v\/)|(\/u\/\w\/)|(embed\/)|(watch\?))\??v?=?([^#&?]*).*/`.
The leading greedy `.*` places the alternation at the *rightmost* position at
which any alternative matches (the rest of the pattern matches any suffix),
then group 7 is the longest run free of `#`, `&`, `?` after the optional
`?`, `v`, `=`. One simplification: the JS dot does not cross a newline, so on
inputs containing newlines the real regex restricts the alternation to the
first line while this model scans the whole input; both behaviours satisfy
the length property proved below. -/

/-- Does one of the six regex alternatives match at the head of `l`? Returns
the number of characters it consumes. `youtu.be/` has an unescaped dot, so
its sixth character is arbitrary. -/
def matchAltAt (l : List Char) : Option Nat :=
  if startsWithChars "youtu".data l && decide (6 ≤ l.length)
      && startsWithChars "be/".data (l.drop 6) then some 9
  else if startsWithChars "v/".data l then some 2
  else
    match l with
    | '/' :: 'u' :: '/' :: w :: '/' :: _ =>
      if isJsWordChar w then some 5
      else if startsWithChars "embed/".data l then some 6
      else if startsWithChars "watch?".data l then some 6
      else none
    | _ =>
      if startsWithChars "embed/".data l then some 6
      else if startsWithChars "watch?".data l then some 6
      else none

/-- The suffix remaining after the rightmost alternative match in `l`
(`none` when no alternative matches anywhere). -/
def lastAltFrom : List Char → Option (List Char)
  | [] => none
  | c :: cs =>
    match lastAltFrom cs with
    | some r => some r
    | none =>
      match matchAltAt (c :: cs) with
      | some k => some ((c :: cs).drop k)
      | none => none

/-- Group 7 of the fallback regex on input `l` (`none` when the regex does
not match at all). -/
def fallbackCand (l : List Char) : Option (List Char) :=
  match lastAltFrom l with
  | none => none
  | some rest =>
    let r1 := match rest with | '?' :: t => t | _ => rest
    let r2 := match r1 with | 'v' :: t => t | _ => r1
    let r3 := match r2 with | '=' :: t => t | _ => r2
    some (r3.takeWhile fun c => !(c == '#' || c == '&' || c == '?'))

/-- Step 3 of `extractVideoId` (youtubeUtils.ts lines 57-65): `match[7]` must
be truthy (nonempty); exactly 11 characters are returned as-is, longer
matches are cut to their first 11 characters, anything shorter yields
`null`. -/
def fallbackBranch (cleanUrl : List Char) : Option (List Char) :=
  match fallbackCand cleanUrl with
  | none => none
  | some g7 =>
    if g7.isEmpty then none
    else if g7.length == 11 then some g7
    else if decide (11 < g7.length) then some (g7.take 11)
    else none

/-- Steps 1-3 on the trimmed input: the bare-ID check, then the URL-object
branch, then the fallback regex. -/
def extractFromClean (cleanUrl : List Char) : Option (List Char) :=
  if isId11 cleanUrl then some cleanUrl
  else urlObjBranch cleanUrl <|> fallbackBranch cleanUrl

/-- `extractVideoId` (youtubeUtils.ts lines 10-68) over character lists. -/
def extractVideoIdCore (url : List Char) : Option (List Char) :=
  if url.isEmpty then none
  else extractFromClean (trimChars url)

/-- `extractVideoId` on Lean strings. -/
def extractVideoId (url : String) : Option String :=
  (extractVideoIdCore url.data).map fun l => ⟨l⟩

/-! ## Auxiliary definitions used by the theorem statements -/

/-- The origin reported by genuine player messages. -/
def ytOrigin : String := "https://www.youtube.com"

/-- An `infoDelivery` message with a well-formed envelope from the trusted
origin. -/
def infoMsg (i : InfoPayload) : RawMessage :=
  ⟨ytOrigin, some (.infoDelivery (some i))⟩

/-- The value carried by the last element of `l` on which `f` is defined:
the "most recently processed message that included the field". -/
def lastFieldValue (f : InfoPayload → Option α) : List InfoPayload → Option α
  | [] => none
  | i :: t => (lastFieldValue f t).elim (f i) some

/-! ## Helper lemmas -/

theorem applyInfoDelivery_playerState (s : AppState) (i : InfoPayload) :
    (applyInfoDelivery s i).playerState = i.playerState.getD s.playerState := by
  obtain ⟨ps, m, v, e⟩ := i
  cases ps <;> cases m <;> cases v <;> cases e <;>
    simp only [applyInfoDelivery, Option.getD] <;> split <;> rfl

theorem applyInfoDelivery_isMuted (s : AppState) (i : InfoPayload) :
    (applyInfoDelivery s i).isMuted = i.muted.getD s.isMuted := by
  obtain ⟨ps, m, v, e⟩ := i
  cases ps <;> cases m <;> cases v <;> cases e <;>
    simp only [applyInfoDelivery, Option.getD] <;> split <;> rfl

theorem applyInfoDelivery_volume (s : AppState) (i : InfoPayload) :
    (applyInfoDelivery s i).volume = i.volume.getD s.volume := by
  obtain ⟨ps, m, v, e⟩ := i
  cases ps <;> cases m <;> cases v <;> cases e <;>
    simp only [applyInfoDelivery, Option.getD] <;> split <;> rfl

theorem handleMessage_infoMsg (a : Bool) (s : AppState) (i : InfoPayload) :
    handleMessage a s (infoMsg i) = (applyInfoDelivery s i, []) := by
  have h : strIncludes ytOrigin "youtube" = true := by decide
  simp [handleMessage, infoMsg, h]

theorem runMessages_infoMsgs (a : Bool) (l : List InfoPayload) :
    ∀ s : AppState,
      runMessages a s (l.map infoMsg) = l.foldl applyInfoDelivery s := by
  induction l with
  | nil => intro s; rfl
  | cons i t ih =>
    intro s
    simpa [runMessages, handleMessage_infoMsg a s i] using
      ih (applyInfoDelivery s i)

theorem foldl_applyInfoDelivery_playerState (l : List InfoPayload) :
    ∀ s : AppState,
      (l.foldl applyInfoDelivery s).playerState
        = (lastFieldValue (·.playerState) l).getD s.playerState := by
  induction l with
  | nil => intro s; rfl
  | cons i t ih =>
    intro s
    simp only [List.foldl_cons, ih (applyInfoDelivery s i), lastFieldValue]
    cases lastFieldValue (·.playerState) t with
    | none => simp [applyInfoDelivery_playerState]
    | some x => simp

/-! ## Claim theorems -/

/-- Claim C1. The claim says `fallbackForced` (`hasConnectionError`) is
sticky: once a denial error code is processed, no later `onReady` or
`initialDelivery` may clear it within the same VideoRequest. The code
violates this: `handleMessage` runs `setHasConnectionError(false)`
unconditionally in both the `onReady` and the `initialDelivery` branch
(App.tsx lines 162-175), although the comment above the same statement in
the earlier listener revision announces clearing "only if we aren't already
in a forced error state". This theorem evaluates the code on the failing
trace: a denial (`infoDelivery` with `error:150`) followed by `onReady` or
by `initialDelivery` ends with `hasConnectionError = false`. -/
theorem C1_onReady_clears_forced_fallback :
    (runMessages true initialAppState
        [infoMsg ⟨none, none, none, some 150⟩]).hasConnectionError = true
    ∧ (runMessages true initialAppState
        [infoMsg ⟨none, none, none, some 150⟩, ⟨ytOrigin, some .onReady⟩]).hasConnectionError
        = false
    ∧ (runMessages true initialAppState
        [infoMsg ⟨none, none, none, some 150⟩, ⟨ytOrigin, some .initialDelivery⟩]).hasConnectionError
        = false := by
  refine ⟨by decide, by decide, by decide⟩

/-- Claim C2, counterexample. The claim's truth table makes the mode
`PassThrough` at `F = 0, S = 0, A = 0`; the live resolver
(VideoBackground.tsx line 221) computes `useFallback || isSandboxed`,
ignoring autoplay, so that combination is `Intercepted`. -/
theorem C2_counterexample :
    specInteractionMode false false false = .PassThrough
    ∧ interactionMode false false = .Intercepted := by
  exact ⟨rfl, rfl⟩

/-- Claim C2, amended. For all 8 combinations of `{F, S, A}` the live
resolver yields `PassThrough` exactly when `F ∨ S` and `Intercepted` exactly
when `¬F ∧ ¬S`; the autoplay flag is not consulted. The earlier revision of
the component (line 63) instead used `F ∨ ¬A` and ignored the sandbox flag. -/
theorem C2_interaction_mode_truth_table :
    ∀ (F S A : Bool),
      (interactionMode F S = .PassThrough ↔ (F || S) = true)
      ∧ (interactionMode F S = .Intercepted ↔ (F = false ∧ S = false))
      ∧ (interactionModeV1 F A = .PassThrough ↔ (F || !A) = true) := by
  decide

/-- Claim C3. Over any sequence of processed `infoDelivery` messages the
lifecycle equals the `playerState` field of the most recent message that
carried one (or the prior value when none did); and in a single message each
absent field (`playerState`, `muted`, `volume`) leaves the corresponding
state field untouched, each present field overwrites it. -/
theorem C3_lifecycle_tracks_last_infoDelivery :
    ∀ (a : Bool) (s : AppState) (l : List InfoPayload),
      (runMessages a s (l.map infoMsg)).playerState
        = (lastFieldValue (·.playerState) l).getD s.playerState
      ∧ ∀ i : InfoPayload,
          (applyInfoDelivery s i).playerState = i.playerState.getD s.playerState
          ∧ (applyInfoDelivery s i).isMuted = i.muted.getD s.isMuted
          ∧ (applyInfoDelivery s i).volume = i.volume.getD s.volume := by
  intro a s l
  refine ⟨?_, fun i => ⟨applyInfoDelivery_playerState s i,
    applyInfoDelivery_isMuted s i, applyInfoDelivery_volume s i⟩⟩
  rw [runMessages_infoMsgs a l s, foldl_applyInfoDelivery_playerState l s]

/-- Claim C4. A VideoRequest change runs the `InputBar` callback
(`setPlayerState(-1)`, App.tsx line 233) and then the listener effect head
(`setHasConnectionError(false)`, lines 130-131) before the new listener
exists, so the state in which the first inbound event of the new request is
processed has lifecycle `Unstarted` (−1) and `fallbackForced` false,
whatever the previous state was. -/
theorem C4_video_change_resets :
    ∀ s : AppState,
      (videoChangeReset s).playerState = -1
      ∧ (videoChangeReset s).hasConnectionError = false
      ∧ (videoChangeReset s).isApiConnected = false := by
  intro s
  exact ⟨rfl, rfl, rfl⟩

/-- Claim C5. A message whose reported origin does not contain the substring
`youtube`, and a trusted-origin message whose payload fails to parse, leave
the whole component state unchanged and send no command; `handleMessage` is
total, so no failure escapes to the caller. -/
theorem C5_foreign_or_malformed_is_noop :
    ∀ (a : Bool) (s : AppState) (m : RawMessage),
      (strIncludes m.origin "youtube" = false → handleMessage a s m = (s, []))
      ∧ (m.payload = none → handleMessage a s m = (s, [])) := by
  intro a s m
  constructor
  · intro h
    simp [handleMessage, h]
  · intro h
    by_cases ho : strIncludes m.origin "youtube" <;> simp [handleMessage, h, ho]

/-- Claim C5, witness: a foreign-origin `onReady` and an unparseable
trusted-origin payload both leave the initial state untouched. -/
theorem C5_witness :
    handleMessage true initialAppState ⟨"https://evil.example.com", some .onReady⟩
        = (initialAppState, [])
    ∧ handleMessage true initialAppState ⟨ytOrigin, none⟩ = (initialAppState, []) :=
  ⟨(C5_foreign_or_malformed_is_noop true initialAppState
      ⟨"https://evil.example.com", some .onReady⟩).1 (by decide),
   (C5_foreign_or_malformed_is_noop true initialAppState ⟨ytOrigin, none⟩).2 rfl⟩

/-- Claim C6, counterexample. The claim asserts that *any* error code value
present in an `infoDelivery` payload forces fallback; the code tests JS
truthiness (`if (data.info.error)`, App.tsx line 158), so a payload carrying
`error: 0` is present yet does not set `hasConnectionError`. -/
theorem C6_counterexample :
    (handleMessage true initialAppState
        (infoMsg ⟨none, none, none, some 0⟩)).1.hasConnectionError = false := by
  decide

/-- Claim C6, amended. A processed `infoDelivery` carrying a *nonzero* error
code sets `fallbackForced` whatever the rest of the payload or the prior
state; and the error field never moves the lifecycle: without a
`playerState` field the lifecycle is unchanged. -/
theorem C6_nonzero_error_forces_fallback :
    ∀ (a : Bool) (s : AppState) (i : InfoPayload) (e : Int),
      i.error = some e → e ≠ 0 →
        (handleMessage a s (infoMsg i)).1.hasConnectionError = true
        ∧ (i.playerState = none →
            (handleMessage a s (infoMsg i)).1.playerState = s.playerState) := by
  intro a s i e he hne
  rw [handleMessage_infoMsg]
  constructor
  · obtain ⟨ps, m, v, e'⟩ := i
    cases he
    cases ps <;> cases m <;> cases v <;>
      simp [applyInfoDelivery, hne]
  · intro hps
    rw [applyInfoDelivery_playerState, hps]
    rfl

/-- Claim C6, witness: `{event:"infoDelivery", info:{error:150}}` forces
fallback and leaves the lifecycle at its initial value. -/
theorem C6_witness :
    (handleMessage true initialAppState
        (infoMsg ⟨none, none, none, some 150⟩)).1.hasConnectionError = true
    ∧ (handleMessage true initialAppState
        (infoMsg ⟨none, none, none, some 150⟩)).1.playerState
        = initialAppState.playerState :=
  have h := C6_nonzero_error_forces_fallback true initialAppState
    ⟨none, none, none, some 150⟩ 150 rfl (by decide)
  ⟨h.1, h.2 rfl⟩

/-- A timer that is strictly older than the fresh counter, no longer pending
and not yet fired can never fire later, whatever events follow: clearing is
final because fresh timers get strictly larger identifiers. -/
theorem kickRun_cancelled_never_fires :
    ∀ (evs : List KickEvent) (s : KickState) (t : Nat),
      t < s.nextId → s.pending ≠ some t → t ∉ s.fired →
        t ∉ (kickRun s evs).fired := by
  intro evs
  induction evs with
  | nil => intro s t _ _ hf; exact hf
  | cons e rest ih =>
    intro s t hlt hp hf
    have hstep : t < (kickStep s e).nextId ∧ (kickStep s e).pending ≠ some t
        ∧ t ∉ (kickStep s e).fired := by
      cases e with
      | effectRun f a =>
        by_cases hc : (f || !a) = true
        · simp [kickStep, hc, hlt, hf]
        · simp only [kickStep, hc, if_false]
          refine ⟨Nat.lt_succ_of_lt hlt, ?_, hf⟩
          intro hcontra
          exact absurd (Option.some.inj hcontra).symm (Nat.ne_of_lt hlt)
      | teardown => simp [kickStep, hlt, hf]
      | timerFire u =>
        by_cases hc : s.pending = some u
        · have hut : t ≠ u := by
            intro h
            exact hp (h ▸ hc)
          simp only [kickStep, hc, if_true]
          refine ⟨hlt, by simp, ?_⟩
          simp [List.mem_append, hf, hut]
        · simp [kickStep, hc, hlt, hp, hf]
    exact ih (kickStep s e) t hstep.1 hstep.2.1 hstep.2.2

/-- Claim C7. The kickstart effect (VideoBackground.tsx lines 157-173):
a cleanup-plus-run cycle schedules exactly one fresh delayed `playVideo`
timer when fallback is not forced and autoplay is requested, and none
otherwise (any previously pending timer being cleared either way); a pending
timer fires its command exactly once; and once a timer has been superseded —
by another effect run (VideoRequest change or fallback becoming forced) or
by teardown — it never fires, whatever happens later. -/
theorem C7_kickstart_schedules_once_and_cancels :
    ∀ (s : KickState) (f a : Bool),
      (f = false → a = true →
        (kickStep s (.effectRun f a)).pending = some s.nextId
        ∧ (kickStep s (.effectRun f a)).nextId = s.nextId + 1
        ∧ (kickStep s (.effectRun f a)).fired = s.fired)
      ∧ ((f || !a) = true → (kickStep s (.effectRun f a)).pending = none)
      ∧ (∀ t : Nat, s.pending = some t →
          (kickStep s (.timerFire t)).fired = s.fired ++ [t]
          ∧ (kickStep s (.timerFire t)).pending = none)
      ∧ (∀ (t : Nat) (evs : List KickEvent),
          t < s.nextId → s.pending ≠ some t → t ∉ s.fired →
            t ∉ (kickRun s evs).fired) := by
  intro s f a
  refine ⟨?_, ?_, ?_, ?_⟩
  · rintro rfl rfl
    exact ⟨rfl, rfl, rfl⟩
  · intro hc
    simp [kickStep, hc]
  · intro t hp
    simp [kickStep, hp]
  · intro t evs h1 h2 h3
    exact kickRun_cancelled_never_fires evs s t h1 h2 h3

/-- Claim C7, witness: from a fresh mount, running the effect with
`useFallback = false, autoplay = true` schedules timer 0; if the request
then changes (second effect run) before the settle delay elapses, timer 0
never fires — and a run with autoplay off schedules nothing. -/
theorem C7_witness :
    (kickStep initialKickState (.effectRun false true)).pending = some 0
    ∧ (kickStep initialKickState (.effectRun false false)).pending = none
    ∧ 0 ∉ (kickRun (kickStep (kickStep initialKickState (.effectRun false true))
            (.effectRun false true)) [.timerFire 0]).fired :=
  ⟨(C7_kickstart_schedules_once_and_cancels initialKickState false true).1 rfl rfl |>.1,
   (C7_kickstart_schedules_once_and_cancels initialKickState false false).2.1 rfl,
   (C7_kickstart_schedules_once_and_cancels
      (kickStep (kickStep initialKickState (.effectRun false true))
        (.effectRun false true)) false true).2.2.2
     0 [.timerFire 0] (by decide) (by decide) (by decide)⟩

/-- Claim C8, counterexample. The claim says the fallback locator "always
surfaces native controls"; `getSimpleEmbedUrl` sets `controls=0`, which
*hides* the native controls (only the sandboxed standard locator sets
`controls=1`). -/
theorem C8_counterexample :
    List.lookup "controls" (getSimpleEmbedUrlParams "abc12345678") = some "0"
    ∧ ¬ List.lookup "controls" (getSimpleEmbedUrlParams "abc12345678") = some "1"
    ∧ strIncludes (getSimpleEmbedUrl "abc12345678") "controls=0" = true := by
  refine ⟨by decide, by decide, by decide⟩

/-- Claim C8, amended. For every videoId the fallback locator's parameter
set differs from the standard one — it omits `enablejsapi` and `origin` —
and it disables the command/event API (no `enablejsapi=1`); but it sets
`controls=0`, hiding the native controls rather than surfacing them. -/
theorem C8_fallback_locator_params :
    ∀ (videoId rawOrigin : String),
      (getSimpleEmbedUrlParams videoId).map Prod.fst
          = ["autoplay", "mute", "controls", "loop", "playlist", "playsinline"]
      ∧ (getEmbedUrlParams rawOrigin videoId).map Prod.fst
          = ["autoplay", "mute", "controls", "enablejsapi", "origin", "loop",
             "playlist", "playsinline"]
      ∧ List.lookup "enablejsapi" (getSimpleEmbedUrlParams videoId) = none
      ∧ List.lookup "controls" (getSimpleEmbedUrlParams videoId) = some "0" := by
  intro videoId rawOrigin
  exact ⟨rfl, rfl, rfl, rfl⟩

/-- Claim C9. The embed URL of the standard mode is independent of the
requested autoplay flag: the call discards the extra argument (the TS
function has a single `videoId` parameter), and the produced parameter list
pins `autoplay=1` and `mute=1` for every videoId and window origin. -/
theorem C9_embedUrl_independent_of_autoplay :
    ∀ (rawOrigin videoId : String) (a b : Bool),
      getEmbedUrlCall rawOrigin videoId a = getEmbedUrlCall rawOrigin videoId b
      ∧ List.lookup "autoplay" (getEmbedUrlParams rawOrigin videoId) = some "1"
      ∧ List.lookup "mute" (getEmbedUrlParams rawOrigin videoId) = some "1"
      ∧ strIncludes (getEmbedUrl "https://example.com" "abc12345678")
          "autoplay=1&mute=1" = true := by
  intro rawOrigin videoId a b
  exact ⟨rfl, rfl, rfl, by decide⟩

/-! ## Length lemmas for `extractVideoId` (claim C10) -/

theorem isId11_length {l : List Char} (h : isId11 l = true) : l.length = 11 := by
  simp only [isId11, Bool.and_eq_true] at h
  simpa using h.1

theorem Option_all_orElse {α} {p : α → Bool} {a b : Option α}
    (ha : a.all p = true) (hb : b.all p = true) : (a <|> b).all p = true := by
  cases a with
  | some v => rw [Option.some_orElse]; exact ha
  | none => rw [Option.none_orElse]; exact hb

theorem Option_all_bind {α β} {p : β → Bool} {f : α → Option β}
    (hf : ∀ a, (f a).all p = true) :
    ∀ o : Option α, (o.bind f).all p = true := by
  intro o
  cases o with
  | some a => exact hf a
  | none => rfl

theorem checkId11_all11 (id : List Char) :
    ((checkId11 id).all fun r => r.length == 11) = true := by
  unfold checkId11
  split
  next h =>
    rw [Bool.and_eq_true] at h
    have h11 := isId11_length h.2
    simp [Option.all, h11]
  next => rfl

theorem youtuBeBranch_all11 (u : UrlObj) :
    ((youtuBeBranch u).all fun r => r.length == 11) = true := by
  unfold youtuBeBranch
  split
  · exact checkId11_all11 _
  · rfl

theorem youtubeComBranch_all11 (u : UrlObj) :
    ((youtubeComBranch u).all fun r => r.length == 11) = true := by
  unfold youtubeComBranch
  split
  · refine Option_all_orElse (Option_all_orElse ?_ ?_) ?_
    · cases searchGet u.query ['v'] with
      | some id => exact checkId11_all11 id
      | none => rfl
    · split
      · cases splitSecond "/shorts/".data u.pathname with
        | some seg => exact checkId11_all11 _
        | none => rfl
      · rfl
    · split
      · cases splitSecond "/embed/".data u.pathname with
        | some seg => exact checkId11_all11 _
        | none => rfl
      · rfl
  · rfl

theorem urlObjBranch_all11 (cleanUrl : List Char) :
    ((urlObjBranch cleanUrl).all fun r => r.length == 11) = true := by
  unfold urlObjBranch
  exact Option_all_bind
    (fun u => Option_all_orElse (youtuBeBranch_all11 u) (youtubeComBranch_all11 u)) _

theorem fallbackBranch_all11 (cleanUrl : List Char) :
    ((fallbackBranch cleanUrl).all fun r => r.length == 11) = true := by
  unfold fallbackBranch
  cases fallbackCand cleanUrl with
  | none => rfl
  | some g7 =>
    by_cases he : g7.isEmpty
    · simp [he]
    · by_cases h11 : g7.length == 11
      · simp [he, h11]
      · by_cases hgt : 11 < g7.length
        · have : (g7.take 11).length = 11 := by
            rw [List.length_take]
            exact Nat.min_eq_left (Nat.le_of_lt hgt)
          simp [he, h11, hgt, Option.all, this]
        · simp [he, h11, hgt]

theorem extractFromClean_all11 (cleanUrl : List Char) :
    ((extractFromClean cleanUrl).all fun r => r.length == 11) = true := by
  unfold extractFromClean
  split
  next h => simp [Option.all, isId11_length h]
  next =>
    exact Option_all_orElse (urlObjBranch_all11 cleanUrl) (fallbackBranch_all11 cleanUrl)

theorem extractVideoIdCore_all11 (url : List Char) :
    ((extractVideoIdCore url).all fun r => r.length == 11) = true := by
  unfold extractVideoIdCore
  split
  · rfl
  · exact extractFromClean_all11 (trimChars url)

/-- Claim C10. Every result of `extractVideoId` is `none` or a string of
exactly 11 characters; every candidate from the URL-object step had to pass
the 11-character test, and the fallback-regex step truncates longer matches
to their first 11 characters instead of rejecting them, shown here on
`watch?v=abcdefghijklmnop` (a 16-character candidate). -/
theorem C10_extractVideoId_length :
    (∀ url : String, ((extractVideoId url).all fun r => r.length == 11) = true)
    ∧ extractVideoId "watch?v=abcdefghijklmnop" = some "abcdefghijk" := by
  constructor
  · intro url
    unfold extractVideoId
    cases h : extractVideoIdCore url.data with
    | none => rfl
    | some l =>
      have hall := extractVideoIdCore_all11 url.data
      rw [h] at hall
      simpa [Option.all, String.length] using hall
  · decide

end TubeBackdrop
